import Mathlib

/-
  Verification development for the mem-rs memory-introspection library.

  The definitions below are a shallow embedding of the Rust sources:
    - src/helpers.rs                (byte-pattern scanner, signature compilation)
    - src/pointer.rs                (pointer-chain resolution, relative read/write)
    - src/memory/base_read_write.rs (raw reads through the OS collaborator)
    - src/memory/read_write.rs      (typed reads/writes)
    - src/process_module/mod.rs     (module snapshot capture)
    - src/process/refresh.rs        (attach/detach state machine)
    - src/process/scanning.rs       (absolute/relative scan address derivation)

  Modelling conventions:
    - usize is modelled as Nat with explicit wrap-around modulo 2^64
      (the crate only targets 64-bit Windows); `wAdd` is release-mode
      wrapping addition.
    - Bytes are Nat values; the OS read collaborator
      `read_process_memory(handle, address, length)` is a function
      `Mem := Nat -> Nat -> Option (List Nat)` returning the transferred
      bytes (possibly fewer than requested) or `none` on failure.
    - Fallible Rust code that can abort (index out of bounds, integer
      overflow with overflow checks, `expect`, `Vec::remove` on an empty
      vector) is modelled with `Except Unit` / `Option`, where the error
      value stands for the abort.
    - Windows is little-endian, so `from_ne_bytes` is little-endian
      decoding.
-/

namespace MemRs

/-- usize modulus of the 64-bit target. -/
def USIZE_MOD : Nat := 2 ^ 64

/-- Wrapping usize addition (release-mode `+` on usize). -/
def wAdd (a b : Nat) : Nat := (a + b) % USIZE_MOD

/-- Little-endian decoding of a byte buffer, i.e. `uN::from_ne_bytes` on a
little-endian target. -/
def leDecode : List Nat → Nat
  | [] => 0
  | b :: rest => b + 256 * leDecode rest

/-- Two's-complement reinterpretation of a `w`-bit unsigned value, i.e.
`iN::from_ne_bytes` of the same buffer. -/
def toSigned (w : Nat) (n : Nat) : Int :=
  if n < 2 ^ (w - 1) then (n : Int) else (n : Int) - 2 ^ w

/-- The external OS read collaborator: `read_process_memory(handle, address,
length)` from spec section 6, with the handle fixed.  `m addr len` is `none`
when the call fails and `some bs` when it transfers the bytes `bs`
(possibly fewer than `len`). -/
def Mem : Type := Nat → Nat → Option (List Nat)

/-- Model of `BaseReadWrite::read_with_handle` (src/memory/base_read_write.rs,
lines 74-94) reading into a caller-supplied buffer that every call site
zero-initialises: on failure the buffer is left untouched (all zeros), on a
transfer the transferred prefix overwrites the zeros, and the returned flag
is the source's `read_bytes == buffer.len()` success test. -/
def rawRead (m : Mem) (addr len : Nat) : Bool × List Nat :=
  match m addr len with
  | none => (false, List.replicate len 0)
  | some bs => (bs.length == len, bs.take len ++ List.replicate (len - bs.length) 0)

/-
  src/helpers.rs, lines 21-48: `scan`.

      pub fn scan(haystack: &[u8], needle: &[Option<u8>]) -> Option<usize>
      {
          if haystack.len() == 0 { return None; }
          for i in 0..haystack.len() - needle.len()
          {
              let mut found = true;
              for j in 0..needle.len()
              {
                  if let Some(byte) = needle[j]
                  {
                      if byte != haystack[i + j] { found = false; break; }
                  }
              }
              if found { return Some(i); }
          }
          return None;
      }

  For a non-empty haystack strictly shorter than the needle the source
  computes `haystack.len() - needle.len()` on usize, which underflows: with
  overflow checks this aborts at the subtraction, and in release mode the
  wrapped loop bound makes `haystack[i + j]` go out of bounds for any needle
  containing a concrete byte, which also aborts.  Both aborts are modelled
  as `Except.error ()`.  Within the guarded range every index `i + j` is in
  bounds, so the inner loop is the structural `matchesFrom` below.
-/

/-- Inner loop of `scan` at one candidate position: every concrete needle
byte must equal the corresponding haystack byte, wildcards match anything. -/
def matchesFrom : List Nat → List (Option Nat) → Bool
  | _, [] => true
  | [], _ :: _ => false
  | h :: hs, t :: ts =>
    (match t with
     | none => true
     | some b => h == b) && matchesFrom hs ts

/-- Model of `helpers::scan` (src/helpers.rs, lines 21-48).  Note the
exclusive loop bound `haystack.len() - needle.len()` taken from the source:
the last index at which the needle still fits is never tried. -/
def scan (haystack : List Nat) (needle : List (Option Nat)) : Except Unit (Option Nat) :=
  if haystack.length = 0 then
    .ok none
  else if haystack.length < needle.length then
    .error ()
  else
    .ok ((List.range (haystack.length - needle.length)).find?
      (fun i => matchesFrom (haystack.drop i) needle))

/-
  src/helpers.rs, lines 53-68: `to_pattern`.

      pub fn to_pattern(str: &str) -> Vec<Option<u8>>
      {
          let mut vec = Vec::new();
          for substr in str.split(" ")
          {
              if substr == "?" { vec.push(None); }
              else
              {
                  vec.push(Some(u8::from_str_radix(substr, 16)
                      .expect("invalid hex string in pattern string")));
              }
          }
          return vec;
      }
-/

/-- Model of `str::split(" ")` on a character list: splits at every single
space, keeping empty segments (so the empty input yields one empty token,
exactly as in Rust). -/
def splitOnSpace : List Char → List (List Char)
  | [] => [[]]
  | c :: rest =>
    match splitOnSpace rest with
    | [] => [[c]]
    | seg :: segs => if c = ' ' then [] :: seg :: segs else (c :: seg) :: segs

/-- Model of `char::to_digit(c, 16)`: value of one hex digit. -/
def hexVal (c : Char) : Option Nat :=
  if 48 ≤ c.toNat ∧ c.toNat ≤ 57 then some (c.toNat - 48)
  else if 97 ≤ c.toNat ∧ c.toNat ≤ 102 then some (c.toNat - 97 + 10)
  else if 65 ≤ c.toNat ∧ c.toNat ≤ 70 then some (c.toNat - 65 + 10)
  else none

/-- Digit-accumulation loop of `u8::from_str_radix(s, 16)` on the positive
path: each step multiplies by the radix and adds the digit, failing on any
intermediate overflow of u8. -/
def parseHexDigits : List Char → Nat → Option Nat
  | [], acc => some acc
  | c :: rest, acc =>
    match hexVal c with
    | none => none
    | some d => if acc * 16 + d ≤ 255 then parseHexDigits rest (acc * 16 + d) else none

/-- Digit-accumulation loop of `u8::from_str_radix` after a leading minus
sign: the subtraction underflows u8 for any nonzero digit, so only strings
of zero digits succeed (with value 0). -/
def parseHexDigitsNeg : List Char → Nat → Option Nat
  | [], acc => some acc
  | c :: rest, acc =>
    match hexVal c with
    | none => none
    | some d => if acc = 0 ∧ d = 0 then parseHexDigitsNeg rest 0 else none

/-- Model of `u8::from_str_radix(s, 16)`: an optional sign followed by a
non-empty run of hex digits whose value fits in u8. -/
def fromStrRadixU8 (cs : List Char) : Option Nat :=
  match cs with
  | [] => none
  | c :: rest =>
    if c = '+' then (if rest = [] then none else parseHexDigits rest 0)
    else if c = '-' then (if rest = [] then none else parseHexDigitsNeg rest 0)
    else parseHexDigits cs 0

/-- One token of `to_pattern`: the literal `?` becomes a wildcard, any other
token goes through `u8::from_str_radix(_, 16)`, whose failure `expect`s
(aborts), modelled as `Except.error ()`. -/
def tokenToPatternByte (t : List Char) : Except Unit (Option Nat) :=
  if t = ['?'] then .ok none
  else
    match fromStrRadixU8 t with
    | some b => .ok (some b)
    | none => .error ()

/-- The token loop of `to_pattern`: each token is compiled in order and the
first failing token aborts the whole compilation. -/
def compileTokens : List (List Char) → Except Unit (List (Option Nat))
  | [] => .ok []
  | t :: ts =>
    match tokenToPatternByte t with
    | .error e => .error e
    | .ok b =>
      match compileTokens ts with
      | .error e => .error e
      | .ok bs => .ok (b :: bs)

/-- Model of `helpers::to_pattern` (src/helpers.rs, lines 53-68). -/
def to_pattern (cs : List Char) : Except Unit (List (Option Nat)) :=
  compileTokens (splitOnSpace cs)

/-
  src/pointer.rs, lines 37-135: `Pointer` and `Pointer::resolve_offsets`.

      let mut ptr = self.base_address;
      for i in 0..offsets.len()
      {
          let offset = offsets[i];
          let address = ptr + offset;
          if i + 1 < offsets.len()
          {
              // read 8 (is_64_bit) or 4 bytes at `address`, success ignored,
              // buffer zero-initialised; ptr = uN::from_ne_bytes(buffer)
              if ptr == 0 { return 0; }
          }
          else { ptr = address; }
      }
      return ptr;
-/

/-- The `Pointer` data (src/pointer.rs, lines 37-45): bitness, base address
and stored offsets.  The shared `process_data` handle is replaced by passing
the read collaborator `Mem` explicitly. -/
structure Pointer where
  is64 : Bool
  base : Nat
  offsets : List Nat

/-- One non-terminal dereference of `resolve_offsets`: read a pointer-sized
buffer (8 bytes if 64-bit, else 4) at `addr` through the collaborator with
the success flag ignored, and decode it natively. -/
def derefAt (m : Mem) (is64 : Bool) (addr : Nat) : Nat :=
  leDecode (rawRead m addr (if is64 then 8 else 4)).2

/-- Model of `Pointer::resolve_offsets` (src/pointer.rs, lines 82-135):
the last offset is added without a dereference, every earlier offset is
added and then dereferenced, and a null intermediate pointer short-circuits
the whole resolution to the sentinel 0. -/
def resolveOffsets (m : Mem) (is64 : Bool) : Nat → List Nat → Nat
  | ptr, [] => ptr
  | ptr, [o] => wAdd ptr o
  | ptr, o :: o2 :: rest =>
    let v := derefAt m is64 (wAdd ptr o)
    if v = 0 then 0 else resolveOffsets m is64 v (o2 :: rest)

/-- Intermediate pointer of the `resolve_offsets` walk: `walkPtr m is64 ptr
os i` is the value of the loop variable `ptr` at the start of iteration `i`,
provided the first `i` dereferences all returned nonzero values (and `none`
otherwise, or when fewer than `i` non-terminal offsets exist). -/
def walkPtr (m : Mem) (is64 : Bool) : Nat → List Nat → Nat → Option Nat
  | ptr, _, 0 => some ptr
  | ptr, o :: o2 :: rest, i + 1 =>
    let v := derefAt m is64 (wAdd ptr o)
    if v = 0 then none else walkPtr m is64 v (o2 :: rest) i
  | _, [], _ + 1 => none
  | _, [_], _ + 1 => none

/-- The ad-hoc extra offset of the `_rel` helpers (src/pointer.rs, lines
140-160): the call-site offset is appended to a copy of the stored offsets
before resolution. -/
def optAppend (offsets : List Nat) (offset : Option Nat) : List Nat :=
  match offset with
  | some o => offsets ++ [o]
  | none => offsets

/-- Address resolved by `Pointer::read_memory_rel`/`write_memory_rel`
(src/pointer.rs, lines 140-160). -/
def pointerResolve (m : Mem) (p : Pointer) (offset : Option Nat) : Nat :=
  resolveOffsets m p.is64 p.base (optAppend p.offsets offset)

/-- Model of `Pointer::read_memory_rel` (src/pointer.rs, lines 140-149)
reading `len` bytes into a zero-initialised buffer: returns the success
flag and the buffer contents. -/
def readMemoryRel (m : Mem) (p : Pointer) (offset : Option Nat) (len : Nat) : Bool × List Nat :=
  rawRead m (pointerResolve m p offset) len

/-
  src/memory/read_write.rs, lines 37-203: the typed reads.  Every one of
  them builds a zero-initialised buffer of the exact width, calls
  `read_memory_rel` WITHOUT inspecting the returned success flag, and
  decodes the buffer natively.  The two float reads are modelled by their
  raw bit patterns (`fN::from_ne_bytes` of the buffer); bit pattern 0 is
  the float +0.0.
-/

/-- Model of `ReadWrite::read_u8_rel`: `buffer[0]`. -/
def read_u8_rel (m : Mem) (p : Pointer) (offset : Option Nat) : Nat :=
  leDecode (readMemoryRel m p offset 1).2

/-- Model of `ReadWrite::read_u32_rel`: `u32::from_ne_bytes(buffer)`. -/
def read_u32_rel (m : Mem) (p : Pointer) (offset : Option Nat) : Nat :=
  leDecode (readMemoryRel m p offset 4).2

/-- Model of `ReadWrite::read_u64_rel`: `u64::from_ne_bytes(buffer)`. -/
def read_u64_rel (m : Mem) (p : Pointer) (offset : Option Nat) : Nat :=
  leDecode (readMemoryRel m p offset 8).2

/-- Model of `ReadWrite::read_i8_rel`: `i8::from_ne_bytes(buffer)`. -/
def read_i8_rel (m : Mem) (p : Pointer) (offset : Option Nat) : Int :=
  toSigned 8 (leDecode (readMemoryRel m p offset 1).2)

/-- Model of `ReadWrite::read_i32_rel`: `i32::from_ne_bytes(buffer)`. -/
def read_i32_rel (m : Mem) (p : Pointer) (offset : Option Nat) : Int :=
  toSigned 32 (leDecode (readMemoryRel m p offset 4).2)

/-- Model of `ReadWrite::read_i64_rel`: `i64::from_ne_bytes(buffer)`. -/
def read_i64_rel (m : Mem) (p : Pointer) (offset : Option Nat) : Int :=
  toSigned 64 (leDecode (readMemoryRel m p offset 8).2)

/-- Model of `ReadWrite::read_f32_rel`, as the raw bit pattern of the
returned float (`f32::from_ne_bytes(buffer)`); bits 0 denote +0.0. -/
def read_f32_rel_bits (m : Mem) (p : Pointer) (offset : Option Nat) : Nat :=
  leDecode (readMemoryRel m p offset 4).2

/-- Model of `ReadWrite::read_f64_rel`, as the raw bit pattern of the
returned float (`f64::from_ne_bytes(buffer)`); bits 0 denote +0.0. -/
def read_f64_rel_bits (m : Mem) (p : Pointer) (offset : Option Nat) : Nat :=
  leDecode (readMemoryRel m p offset 8).2

/-- Model of `ReadWrite::read_bool_rel`: `buffer[0] != 0`. -/
def read_bool_rel (m : Mem) (p : Pointer) (offset : Option Nat) : Bool :=
  leDecode (readMemoryRel m p offset 1).2 != 0

/-
  src/process_module/mod.rs, lines 67-76: `ProcessModule::dump_memory`.

      pub fn dump_memory(&mut self)
      {
          let mut buffer: Vec<u8> = vec![0; self.size];
          if !self.read_memory_abs(self.base_address, &mut buffer) { return; }
          self.memory = buffer;
      }

  `read_memory_abs` goes through `read_with_handle`, whose Win32 path
  succeeds only when `read_bytes == buffer.len()`.  At capture time the
  module was just constructed with an empty `memory` vector, so a failed or
  short read leaves the snapshot empty.
-/

/-- Model of `ProcessModule::dump_memory` at capture time: the resulting
snapshot buffer (`self.memory`, initially empty). -/
def dumpMemory (m : Mem) (base size : Nat) : List Nat :=
  let r := rawRead m base size
  if r.1 then r.2 else []

/-- A module as enumerated and snapshotted (`ProcessModule`,
src/process_module/mod.rs, lines 29-41, minus the shared process-data
handle). -/
structure ProcModule where
  id : Nat
  path : List Char
  name : List Char
  base : Nat
  size : Nat
  memory : List Nat

/-
  src/process/mod.rs and src/process/refresh.rs: the attachment state
  machine.
-/

/-- The mutable attachment state (`ProcessData`, src/process_data/mod.rs):
target name, attachment flag, pid, handle (`HANDLE::default()` is the null
handle 0), resolved file name and path, and bitness. -/
structure ProcessData where
  name : List Char
  attached : Bool
  id : Nat
  handle : Nat
  filename : List Char
  path : List Char
  is64Bit : Bool

/-- The `Process` state (src/process/mod.rs, lines 47-52): the shared
`ProcessData` plus the cached main-module snapshot. -/
structure ProcState where
  data : ProcessData
  mainModule : Option ProcModule

/-- Model of `Process::new` (src/process/mod.rs, lines 65-83). -/
def processNew (name : List Char) : ProcState :=
  { data :=
      { name := name
        attached := false
        id := 0
        handle := 0
        filename := []
        path := []
        is64Bit := true }
    mainModule := none }

/-- One enumerated process as the OS collaborator answers for it during one
`refresh` call: its pid, the result of `OpenProcess` (`none` = failure; a
successful `OpenProcess` returns a non-null handle), the result of
`K32GetModuleFileNameExW` as the pair (full path, file name) or `none` when
the call returns 0, the result of `IsWow64Process`, the module list from
`get_process_modules`, and the process's memory for the snapshot read. -/
structure ProcEntry where
  pid : Nat
  openedHandle : Option Nat
  modFileName : Option (List Char × List Char)
  wow64 : Option Bool
  modules : List ProcModule
  mem : Mem

/-- Collaborator responses consumed by one `refresh` call: the
`GetExitCodeProcess` outcome on the current handle (`none` = the call
failed) and the process enumeration. -/
structure RefreshEnv where
  exitCode : Option Nat
  enumOk : Bool
  processes : List ProcEntry

/-- Distinguishable `refresh` failures (the `Err(String)` values of
src/process/refresh.rs: "Process exited", "Failed to get running
processes", "Process not running"). -/
inductive RefreshError where
  | processExited
  | enumFailed
  | processNotRunning
deriving DecidableEq

/-- src/process/mod.rs, line 30. -/
def STILL_ACTIVE : Nat := 259

/-- The liveness test of refresh (src/process/refresh.rs, line 45): the
process is alive iff `GetExitCodeProcess` succeeded and returned
`STILL_ACTIVE`. -/
def isAlive (exitCode : Option Nat) : Bool :=
  exitCode == some STILL_ACTIVE

/-- The detach-on-exit state update (src/process/refresh.rs, lines 47-53):
clears the attachment flag, pid, handle, file name and path; the target
name and bitness are untouched. -/
def clearData (d : ProcessData) : ProcessData :=
  { d with attached := false, id := 0, handle := 0, filename := [], path := [] }

/-- ASCII model of `str::to_lowercase` used by the name comparison
(src/process/refresh.rs, line 97); process image names are ASCII. -/
def asciiLowerChar (c : Char) : Char :=
  if 65 ≤ c.toNat ∧ c.toNat ≤ 90 then Char.ofNat (c.toNat + 32) else c

/-- Lowercased character list. -/
def asciiLower (cs : List Char) : List Char :=
  cs.map asciiLowerChar

/-- The attach loop of `refresh` (src/process/refresh.rs, lines 73-126):
processes whose handle cannot be opened, whose file name cannot be resolved
or whose bitness query fails are skipped; on the first name match the state
is updated as one unit and the main module (the first enumerated module) is
snapshotted.  `Vec::remove(0)` on an empty module list aborts, modelled as
`none`.  Falling off the loop yields "Process not running". -/
def attachLoop (s : ProcState) : List ProcEntry → Option (ProcState × Except RefreshError Unit)
  | [] => some (s, .error .processNotRunning)
  | e :: rest =>
    match e.openedHandle with
    | none => attachLoop s rest
    | some h =>
      match e.modFileName with
      | none => attachLoop s rest
      | some pn =>
        if asciiLower s.data.name == asciiLower pn.2 then
          match e.wow64 with
          | none => attachLoop s rest
          | some w =>
            match e.modules with
            | [] => none
            | mo :: _ =>
              some
                ({ data :=
                     { s.data with
                       id := e.pid
                       handle := h
                       is64Bit := !w
                       filename := pn.2
                       path := pn.1
                       attached := true }
                   mainModule := some { mo with memory := dumpMemory e.mem mo.base mo.size } },
                 .ok ())
        else attachLoop s rest

/-- Model of `Process::refresh` (src/process/refresh.rs, lines 39-128) as a
step function over the attachment state, with the collaborator responses
passed explicitly; `none` is an abort inside the attach path. -/
def refreshStep (s : ProcState) (env : RefreshEnv) : Option (ProcState × Except RefreshError Unit) :=
  if s.data.attached && !isAlive env.exitCode then
    some ({ s with data := clearData s.data }, .error .processExited)
  else if s.data.attached then
    some (s, .ok ())
  else if !env.enumOk then
    some (s, .error .enumFailed)
  else
    attachLoop s env.processes

/-- Whether an entry of the enumeration matches the configured target name
the way the attach loop tests it: its handle opens, its file name resolves,
and the lowercased names are equal. -/
def entryMatches (target : List Char) (e : ProcEntry) : Bool :=
  match e.openedHandle, e.modFileName with
  | some _, some pn => asciiLower target == asciiLower pn.2
  | _, _ => false

/-- Well-formedness of the collaborator responses: a successful
`OpenProcess` never returns the null handle (the windows API surfaces a
null return as the error case). -/
def envWF (env : RefreshEnv) : Prop :=
  ∀ e ∈ env.processes, ∀ h, e.openedHandle = some h → h ≠ 0

/-- States reachable from construction through any sequence of `refresh`
calls against well-formed collaborator responses (aborting calls produce no
successor state). -/
inductive Reachable : ProcState → Prop where
  | init (name : List Char) : Reachable (processNew name)
  | step (s : ProcState) (env : RefreshEnv) (s' : ProcState) (r : Except RefreshError Unit) :
      Reachable s → envWF env → refreshStep s env = some (s', r) → Reachable s'

/-- Agreement of the attachment flag and the handle: attached states hold a
non-null handle, detached states hold the null handle. -/
def handleInvariant (s : ProcState) : Prop :=
  (s.data.attached = true → s.data.handle ≠ 0) ∧
  (s.data.attached = false → s.data.handle = 0)

/-
  src/process/scanning.rs, lines 65-79: `Process::scan_rel`.

      let byte_pattern = to_pattern(pattern);
      let scan_result = scan(&self.get_main_module().memory, &byte_pattern);
      if scan_result.is_none() { return Err(...); }
      let address = scan_result.unwrap();
      let address_value = self.read_u32_rel(Some(address + scan_offset));
      let result = self.get_main_module().base_address + address
                 + instruction_size + address_value as usize; //Relative jump

  `Process::read_u32_rel` goes through `Process::read_memory_rel`
  (src/process/read_write.rs), which reads 4 bytes from live process memory
  at `main_module.base_address + offset`, ignoring the success flag.  Note
  `address_value` has type u32 and `as usize` zero-extends it.
-/

/-- Abort/failure outcomes of `scan_rel`: `panicked` covers the aborts of
`to_pattern` and `scan`, `scanFailed` is the `Err("Scan failed: <label>")`
result (the label carries no information the model needs). -/
inductive RtError where
  | panicked
  | scanFailed
deriving DecidableEq

/-- Model of `Process::read_u32_rel` for the `Process` receiver: read 4
bytes of live memory at `module_base + offset` into a zero-initialised
buffer, ignore the success flag, and decode natively as u32. -/
def processReadU32Rel (m : Mem) (moduleBase : Nat) (offset : Option Nat) : Nat :=
  leDecode (rawRead m (match offset with
    | some o => wAdd moduleBase o
    | none => moduleBase) 4).2

/-- Model of `Process::scan_rel` (src/process/scanning.rs, lines 65-79),
returning the base address of the produced `Pointer`.  `snapshot` is the
main module's captured memory, `moduleBase` its base address, and `m` the
live process memory. -/
def scanRel (snapshot : List Nat) (moduleBase : Nat) (m : Mem) (patternText : List Char)
    (scanOffset instructionSize : Nat) : Except RtError Nat :=
  match to_pattern patternText with
  | .error _ => .error .panicked
  | .ok bytePattern =>
    match scan snapshot bytePattern with
    | .error _ => .error .panicked
    | .ok none => .error .scanFailed
    | .ok (some address) =>
      let addressValue := processReadU32Rel m moduleBase (some (wAdd address scanOffset))
      .ok (wAdd (wAdd (wAdd moduleBase address) instructionSize) addressValue)

/-
  ===================================================================
  Helper lemmas
  ===================================================================
-/

/-- Decoding an all-zero buffer yields 0. -/
lemma leDecode_replicate_zero : ∀ n, leDecode (List.replicate n 0) = 0
  | 0 => rfl
  | n + 1 => by
    rw [List.replicate_succ]
    simp [leDecode, leDecode_replicate_zero n]

/-
  ===================================================================
  Claim C1
  ===================================================================
-/

/-- Claim C1 (refuting evaluation): for the failing input of a 1-byte
haystack against a 2-byte pattern, the scan aborts (the usize subtraction
`haystack.len() - needle.len()` underflows; in release mode the wrapped
loop bound drives `haystack[i + j]` out of bounds) instead of returning
"not found"; only the zero-length haystack is guarded and yields None. -/
theorem scan_short_haystack_aborts :
    scan [0] [some 18, some 52] = .error () ∧ scan [] [some 18, some 52] = .ok none :=
  ⟨rfl, rfl⟩

/-
  ===================================================================
  Claim C2
  ===================================================================
-/

/-- Claim C2 (refuting evaluation): the haystack [0x12, 0x34] contains the
pattern [Some 0x34] at index 1 — the last index at which the pattern still
fits — yet the scan returns "not found", because the loop bound
`0..haystack.len() - needle.len()` excludes that index. -/
theorem scan_misses_last_fitting_index :
    matchesFrom (List.drop 1 [18, 52]) [some 52] = true ∧
    scan [18, 52] [some 52] = .ok none :=
  ⟨rfl, rfl⟩

/-
  ===================================================================
  Claim C3
  ===================================================================
-/

/-- Claim C3 (refuting evaluation): a relative-mode scan over the snapshot
[48 8b 05 00 00 00 00 00] with pattern "48 8b 05 ? ? ? ?" matches at offset
0; the 4 displacement bytes fc ff ff ff at module_base + 0 + 3 encode the
signed value -4, so the claimed final address is 4096 + 0 + 7 - 4 = 4099 —
but the code decodes them as u32 and zero-extends (`as usize`), producing
4096 + 0 + 7 + 4294967292 = 4294971395. -/
theorem scan_rel_zero_extends_displacement :
    scanRel [72, 139, 5, 0, 0, 0, 0, 0] 4096
      (fun a l => if a == 4099 && l == 4 then some [252, 255, 255, 255]
                  else some (List.replicate l 0))
      ['4', '8', ' ', '8', 'b', ' ', '0', '5', ' ', '?', ' ', '?', ' ', '?', ' ', '?']
      3 7 = .ok 4294971395 ∧
    toSigned 32 (leDecode [252, 255, 255, 255]) = -4 ∧
    (4294971395 : Int) ≠ 4096 + 0 + 7 + toSigned 32 (leDecode [252, 255, 255, 255]) := by
  refine ⟨rfl, by decide, by decide⟩

/-
  ===================================================================
  Claim C4
  ===================================================================
-/

/-- A null value at the first dereference of a chain with a further offset
resolves to the sentinel 0. -/
lemma resolveOffsets_cons_null (m : Mem) (is64 : Bool) (ptr o o2 : Nat) (rest : List Nat)
    (h : derefAt m is64 (wAdd ptr o) = 0) :
    resolveOffsets m is64 ptr (o :: o2 :: rest) = 0 := by
  simp [resolveOffsets, h]

/-- Reaching iteration `i` of the resolve loop with pointer `p` means the
whole resolution equals resolving the remaining offsets from `p`. -/
lemma walkPtr_resolveOffsets (m : Mem) (is64 : Bool) :
    ∀ (i ptr p : Nat) (os : List Nat),
      walkPtr m is64 ptr os i = some p →
      resolveOffsets m is64 ptr os = resolveOffsets m is64 p (os.drop i) := by
  intro i
  induction i with
  | zero =>
    intro ptr p os h
    simp [walkPtr] at h
    subst h
    rfl
  | succ n ih =>
    intro ptr p os h
    match os with
    | [] => simp [walkPtr] at h
    | [o] => simp [walkPtr] at h
    | o :: o2 :: rest =>
      rw [walkPtr] at h
      by_cases hv : derefAt m is64 (wAdd ptr o) = 0
      · simp [hv] at h
      · simp only [hv, if_neg, ite_false] at h
        have := ih (derefAt m is64 (wAdd ptr o)) p (o2 :: rest) h
        rw [List.drop_succ_cons]
        rw [← this]
        simp [resolveOffsets, hv]

/-- Claim C4: for every chain with at least two offsets and every memory
state in which the dereference performed at step `i` (any non-terminal
step, the read at `base + o[0]` being the instance `i = 0`) yields 0,
resolution stops at that step and returns the sentinel 0, whatever the
later offsets hold; the resolver is a total function, so no abort occurs
on the null link. -/
theorem pointer_chain_null_link_zero (m : Mem) (is64 : Bool) (base : Nat)
    (os : List Nat) (i p : Nat)
    (hlen : i + 1 < os.length)
    (hwalk : walkPtr m is64 base os i = some p)
    (hnull : derefAt m is64 (wAdd p (os.getD i 0)) = 0) :
    resolveOffsets m is64 base os = 0 := by
  have hdrop := walkPtr_resolveOffsets m is64 i base p os hwalk
  have hi : i < os.length := Nat.lt_of_succ_lt hlen
  have hcons : os.drop i = os.getD i 0 :: os.drop (i + 1) := by
    rw [List.getD_eq_getElem _ _ hi]
    exact List.drop_eq_getElem_cons hi
  have hne : os.drop (i + 1) ≠ [] := by
    intro hnil
    have : os.length - (i + 1) = 0 := by
      rw [← List.length_drop, hnil]
      rfl
    omega
  obtain ⟨o2, rest, hr⟩ := List.exists_cons_of_ne_nil hne
  rw [hdrop, hcons, hr]
  exact resolveOffsets_cons_null m is64 p (os.getD i 0) o2 rest hnull

/-- Witness for C4: base 100, offsets [4, 8], a collaborator whose reads
all return zero bytes; the first dereference (at 104) yields 0 and the
chain resolves to 0. -/
theorem pointer_chain_null_link_zero_witness :
    resolveOffsets (fun _ l => some (List.replicate l 0)) true 100 [4, 8] = 0 :=
  pointer_chain_null_link_zero (fun _ l => some (List.replicate l 0)) true 100 [4, 8] 0 100
    (by decide) rfl (by decide)

/-
  ===================================================================
  Claim C5
  ===================================================================
-/

/-- Claim C5: a chain with no non-terminal offsets resolves purely
arithmetically: an empty offset list resolves to the base unchanged, and a
single-offset list [a] resolves to base + a.  Both equations hold for every
memory collaborator `m` — and the result coincides for any two
collaborators — so no memory read can influence (or be needed for) the
result. -/
theorem pointer_chain_no_deref (m : Mem) (is64 : Bool) (base a : Nat)
    (h : base + a < USIZE_MOD) :
    resolveOffsets m is64 base [] = base ∧
    resolveOffsets m is64 base [a] = base + a ∧
    (∀ m' : Mem, resolveOffsets m' is64 base [a] = resolveOffsets m is64 base [a]) := by
  refine ⟨rfl, ?_, ?_⟩
  · simp [resolveOffsets, wAdd, Nat.mod_eq_of_lt h]
  · intro m'
    simp [resolveOffsets]

/-- Witness for C5 at base 256, offset 16, against a collaborator that
fails every read. -/
theorem pointer_chain_no_deref_witness :
    resolveOffsets (fun _ _ => none) true 256 [] = 256 ∧
    resolveOffsets (fun _ _ => none) true 256 [16] = 256 + 16 ∧
    (∀ m' : Mem, resolveOffsets m' true 256 [16] = resolveOffsets (fun _ _ => none) true 256 [16]) :=
  pointer_chain_no_deref (fun _ _ => none) true 256 16 (by decide)

/-
  ===================================================================
  Claim C6
  ===================================================================
-/

/-- A hex digit's value is at most 15. -/
lemma hexVal_le_15 (c : Char) (d : Nat) (h : hexVal c = some d) : d ≤ 15 := by
  unfold hexVal at h
  split_ifs at h <;> injection h with h' <;> omega

/-- A character with a hex-digit value is none of the special characters
`+`, `-`, `?`. -/
lemma hexVal_not_special (c : Char) (d : Nat) (h : hexVal c = some d) :
    c ≠ '+' ∧ c ≠ '-' ∧ c ≠ '?' := by
  refine ⟨?_, ?_, ?_⟩ <;> intro e <;> subst e
  · rw [show hexVal '+' = none from rfl] at h
    cases h
  · rw [show hexVal '-' = none from rfl] at h
    cases h
  · rw [show hexVal '?' = none from rfl] at h
    cases h

/-- A two-hex-digit token compiles to the byte with those nibbles. -/
lemma tokenToPatternByte_two_hex (c1 c2 : Char) (d1 d2 : Nat)
    (h1 : hexVal c1 = some d1) (h2 : hexVal c2 = some d2) :
    tokenToPatternByte [c1, c2] = .ok (some (d1 * 16 + d2)) := by
  have b1 := hexVal_le_15 c1 d1 h1
  have b2 := hexVal_le_15 c2 d2 h2
  have n1 := hexVal_not_special c1 d1 h1
  have e0 : d1 ≤ 255 := by omega
  have e1 : 0 * 16 + d1 ≤ 255 := by omega
  have e2 : d1 * 16 + d2 ≤ 255 := by omega
  simp only [tokenToPatternByte, fromStrRadixU8, parseHexDigits, h1, h2, e1, e2,
    if_pos, if_neg n1.1, if_neg n1.2.1, if_true, Nat.zero_mul, Nat.zero_add]
  simp [e0, e2]

/-- A single-hex-digit token also compiles, to that digit's value. -/
lemma tokenToPatternByte_one_hex (c : Char) (d : Nat) (h : hexVal c = some d) :
    tokenToPatternByte [c] = .ok (some d) := by
  have b := hexVal_le_15 c d h
  have n := hexVal_not_special c d h
  have e0 : d ≤ 255 := by omega
  have e : 0 * 16 + d ≤ 255 := by omega
  have hq : ¬([c] = ['?']) := by
    simp only [List.cons.injEq, and_true]
    exact n.2.2
  simp only [tokenToPatternByte, fromStrRadixU8, parseHexDigits, h, e,
    if_neg hq, if_neg n.1, if_neg n.2.1, if_true, Nat.zero_mul, Nat.zero_add]
  simp [e0]

/-- A successful compilation yields one pattern entry per token. -/
lemma compileTokens_ok_length :
    ∀ (ts : List (List Char)) (pat : List (Option Nat)),
      compileTokens ts = .ok pat → pat.length = ts.length := by
  intro ts
  induction ts with
  | nil =>
    intro pat h
    cases h
    rfl
  | cons t ts ih =>
    intro pat h
    unfold compileTokens at h
    cases ht : tokenToPatternByte t with
    | error e => rw [ht] at h; cases h
    | ok b =>
      rw [ht] at h
      cases hc : compileTokens ts with
      | error e => rw [hc] at h; cases h
      | ok bs =>
        rw [hc] at h
        cases h
        simp [ih bs hc]

/-- Claim C6 (counterexample): the single-hex-digit token `f` is not a
fatal configuration error — `u8::from_str_radix("f", 16)` succeeds — so the
compiled pattern is the exact byte 0x0f, contradicting the claim that any
token other than `?` or exactly two hex digits aborts compilation. -/
theorem to_pattern_single_digit_ok :
    to_pattern ['f'] = .ok [some 15] ∧ to_pattern ['f'] ≠ .error () := by
  refine ⟨rfl, ?_⟩
  intro h
  rw [show to_pattern ['f'] = .ok [some 15] from rfl] at h
  cases h

/-- Claim C6 (amended): signature compilation splits on single spaces and
maps each token as follows: `?` becomes a wildcard; any other token is
parsed as a hexadecimal u8 — so every two-hex-digit token becomes the byte
with those nibbles, but a single-hex-digit token is also accepted as that
digit's value rather than being fatal; tokens rejected by that parsing
(the empty token, `0x`-prefixed tokens, values beyond u8) abort
compilation at signature-compile time, and a successful compilation has
exactly one pattern entry per token. -/
theorem to_pattern_amended :
    (∀ c1 c2 d1 d2, hexVal c1 = some d1 → hexVal c2 = some d2 →
        tokenToPatternByte [c1, c2] = .ok (some (d1 * 16 + d2))) ∧
    tokenToPatternByte ['?'] = .ok none ∧
    tokenToPatternByte [] = .error () ∧
    tokenToPatternByte ['0', 'x', '4', '8'] = .error () ∧
    (∀ c d, hexVal c = some d → tokenToPatternByte [c] = .ok (some d)) ∧
    (∀ cs pat, to_pattern cs = .ok pat → pat.length = (splitOnSpace cs).length) := by
  refine ⟨tokenToPatternByte_two_hex, rfl, rfl, rfl, tokenToPatternByte_one_hex, ?_⟩
  intro cs pat h
  exact compileTokens_ok_length (splitOnSpace cs) pat h

/-- Witness for the amended C6, at the tokens `48`, `?`, `f` and the
one-token signature string `f`. -/
theorem to_pattern_amended_witness :
    tokenToPatternByte ['4', '8'] = .ok (some 72) ∧
    tokenToPatternByte ['f'] = .ok (some 15) ∧
    ([some 15] : List (Option Nat)).length = (splitOnSpace ['f']).length :=
  ⟨to_pattern_amended.1 '4' '8' 4 8 rfl rfl,
   to_pattern_amended.2.2.2.2.1 'f' 15 rfl,
   to_pattern_amended.2.2.2.2.2 ['f'] [some 15] rfl⟩

/-
  ===================================================================
  Claim C7
  ===================================================================
-/

/-- Claim C7: every typed read ignores the success flag of the underlying
raw read; when the raw read at the resolved address fails, the typed read
returns the zero/default value of its type — 0 for the six integer widths,
bit pattern 0 (the float +0.0) for both float widths, and false for
booleans. -/
theorem typed_reads_default_on_failure (m : Mem) (p : Pointer) (offset : Option Nat)
    (h : ∀ len, m (pointerResolve m p offset) len = none) :
    read_i8_rel m p offset = 0 ∧ read_i32_rel m p offset = 0 ∧ read_i64_rel m p offset = 0 ∧
    read_u8_rel m p offset = 0 ∧ read_u32_rel m p offset = 0 ∧ read_u64_rel m p offset = 0 ∧
    read_f32_rel_bits m p offset = 0 ∧ read_f64_rel_bits m p offset = 0 ∧
    read_bool_rel m p offset = false := by
  have hbuf : ∀ len, readMemoryRel m p offset len = (false, List.replicate len 0) := by
    intro len
    simp [readMemoryRel, rawRead, h len]
  refine ⟨?_, ?_, ?_, ?_, ?_, ?_, ?_, ?_, ?_⟩ <;>
    simp only [read_i8_rel, read_i32_rel, read_i64_rel, read_u8_rel, read_u32_rel,
      read_u64_rel, read_f32_rel_bits, read_f64_rel_bits, read_bool_rel, hbuf] <;>
    decide

/-- Witness for C7: a pointer with no offsets at base 100 against a
collaborator that fails every read. -/
theorem typed_reads_default_on_failure_witness :
    read_i8_rel (fun _ _ => none) ⟨true, 100, []⟩ none = 0 ∧
    read_i32_rel (fun _ _ => none) ⟨true, 100, []⟩ none = 0 ∧
    read_i64_rel (fun _ _ => none) ⟨true, 100, []⟩ none = 0 ∧
    read_u8_rel (fun _ _ => none) ⟨true, 100, []⟩ none = 0 ∧
    read_u32_rel (fun _ _ => none) ⟨true, 100, []⟩ none = 0 ∧
    read_u64_rel (fun _ _ => none) ⟨true, 100, []⟩ none = 0 ∧
    read_f32_rel_bits (fun _ _ => none) ⟨true, 100, []⟩ none = 0 ∧
    read_f64_rel_bits (fun _ _ => none) ⟨true, 100, []⟩ none = 0 ∧
    read_bool_rel (fun _ _ => none) ⟨true, 100, []⟩ none = false :=
  typed_reads_default_on_failure (fun _ _ => none) ⟨true, 100, []⟩ none (fun _ => rfl)

/-
  ===================================================================
  Claim C10
  ===================================================================
-/

/-- Claim C10: module snapshot capture is all-or-nothing.  The snapshot has
length exactly `size` or length 0; a full transfer of exactly `size` bytes
is kept verbatim, while a failed read or a transfer of any other length
leaves the snapshot empty. -/
theorem dump_memory_all_or_nothing (m : Mem) (base size : Nat) :
    ((dumpMemory m base size).length = size ∨ (dumpMemory m base size).length = 0) ∧
    (∀ bs, m base size = some bs → bs.length = size → dumpMemory m base size = bs) ∧
    (m base size = none → dumpMemory m base size = []) ∧
    (∀ bs, m base size = some bs → bs.length ≠ size → dumpMemory m base size = []) := by
  refine ⟨?_, ?_, ?_, ?_⟩
  · cases hm : m base size with
    | none => simp [dumpMemory, rawRead, hm]
    | some bs =>
      by_cases hl : bs.length = size
      · left
        simp [dumpMemory, rawRead, hm, hl]
      · right
        simp [dumpMemory, rawRead, hm, hl]
  · intro bs hm hl
    simp [dumpMemory, rawRead, hm, hl]
  · intro hm
    simp [dumpMemory, rawRead, hm]
  · intro bs hm hl
    simp [dumpMemory, rawRead, hm, hl]

/-- Witness for C10: a full read of 2 bytes is kept, a failing read and a
short read leave the snapshot empty. -/
theorem dump_memory_all_or_nothing_witness :
    dumpMemory (fun _ _ => some [1, 2]) 0 2 = [1, 2] ∧
    dumpMemory (fun _ _ => none) 0 2 = [] ∧
    dumpMemory (fun _ _ => some [1]) 0 2 = [] :=
  ⟨(dump_memory_all_or_nothing (fun _ _ => some [1, 2]) 0 2).2.1 [1, 2] rfl rfl,
   (dump_memory_all_or_nothing (fun _ _ => none) 0 2).2.2.1 rfl,
   (dump_memory_all_or_nothing (fun _ _ => some [1]) 0 2).2.2.2 [1] rfl (by decide)⟩

/-
  ===================================================================
  Claim C8
  ===================================================================
-/

/-- The attach loop leaves the state untouched and reports "Process not
running" when no enumerated process passes the open/resolve/name test. -/
lemma attachLoop_no_match (s : ProcState) :
    ∀ entries, (∀ e ∈ entries, entryMatches s.data.name e = false) →
      attachLoop s entries = some (s, .error .processNotRunning) := by
  intro entries
  induction entries with
  | nil => intro _; rfl
  | cons e rest ih =>
    intro hall
    have he := hall e (List.mem_cons_self e rest)
    have hrest : ∀ e' ∈ rest, entryMatches s.data.name e' = false :=
      fun e' he' => hall e' (List.mem_cons_of_mem e he')
    rw [attachLoop]
    cases hoh : e.openedHandle with
    | none => exact ih hrest
    | some hh =>
      cases hfn : e.modFileName with
      | none => exact ih hrest
      | some pn =>
        unfold entryMatches at he
        rw [hoh, hfn] at he
        dsimp only at he ⊢
        rw [if_neg (by rw [he]; exact Bool.false_ne_true)]
        exact ih hrest

/-- Claim C8: refresh as a two-outcome failure machine.  When Detached with
a successful enumeration in which no process both opens and resolves to the
target's (case-insensitively lowercased) image file name, refresh reports
"Process not running" and returns the state entirely unchanged.  When
Attached and the liveness check does not report the process alive, refresh
reports "Process exited", clears the handle to the null handle 0, and
transitions to Detached (clearing pid, file name and path in the same
step). -/
theorem refresh_failure_outcomes (s : ProcState) (env : RefreshEnv) :
    (s.data.attached = false → env.enumOk = true →
      (∀ e ∈ env.processes, entryMatches s.data.name e = false) →
      refreshStep s env = some (s, .error .processNotRunning)) ∧
    (s.data.attached = true → isAlive env.exitCode = false →
      refreshStep s env = some ({ s with data := clearData s.data }, .error .processExited)) := by
  constructor
  · intro h1 h2 h3
    simp only [refreshStep, h1, h2, Bool.false_and, Bool.not_true, Bool.false_eq_true,
      if_false, ite_false]
    exact attachLoop_no_match s env.processes h3
  · intro h1 h2
    simp [refreshStep, h1, h2]

/-- Witness for C8: a freshly constructed process against an empty
enumeration stays Detached with "Process not running"; an attached state
whose exit-code query returns 0 is cleared to Detached with "Process
exited". -/
theorem refresh_failure_outcomes_witness :
    refreshStep (processNew ['a']) { exitCode := none, enumOk := true, processes := [] } =
      some (processNew ['a'], .error .processNotRunning) ∧
    refreshStep
      { data := { name := ['a'], attached := true, id := 5, handle := 7,
                  filename := ['a'], path := ['a'], is64Bit := true },
        mainModule := none }
      { exitCode := some 0, enumOk := true, processes := [] } =
      some ({ data := { name := ['a'], attached := false, id := 0, handle := 0,
                        filename := [], path := [], is64Bit := true },
              mainModule := none }, .error .processExited) :=
  ⟨(refresh_failure_outcomes _ _).1 rfl rfl (fun e he => absurd he (List.not_mem_nil e)),
   (refresh_failure_outcomes _ _).2 rfl rfl⟩

/-
  ===================================================================
  Claim C9
  ===================================================================
-/

/-- Every exit of the attach loop preserves the flag/handle agreement: the
skipping branches keep the state, and the attach branch installs the
attached flag together with the (non-null, by the OpenProcess contract)
opened handle in one step. -/
lemma attachLoop_handleInvariant (s : ProcState) (hs : handleInvariant s) :
    ∀ entries, (∀ e ∈ entries, ∀ hh, e.openedHandle = some hh → hh ≠ 0) →
      ∀ s' r, attachLoop s entries = some (s', r) → handleInvariant s' := by
  intro entries
  induction entries with
  | nil =>
    intro _ s' r h
    cases h
    exact hs
  | cons e rest ih =>
    intro hall s' r h
    have hrest : ∀ e' ∈ rest, ∀ hh, e'.openedHandle = some hh → hh ≠ 0 :=
      fun e' he' => hall e' (List.mem_cons_of_mem e he')
    rw [attachLoop] at h
    cases hoh : e.openedHandle with
    | none =>
      rw [hoh] at h
      exact ih hrest s' r h
    | some hh =>
      rw [hoh] at h
      cases hfn : e.modFileName with
      | none =>
        rw [hfn] at h
        exact ih hrest s' r h
      | some pn =>
        rw [hfn] at h
        dsimp only at h
        by_cases hm : (asciiLower s.data.name == asciiLower pn.2) = true
        · rw [if_pos hm] at h
          cases hw : e.wow64 with
          | none =>
            rw [hw] at h
            exact ih hrest s' r h
          | some w =>
            rw [hw] at h
            cases hmo : e.modules with
            | nil =>
              rw [hmo] at h
              cases h
            | cons mo ms =>
              rw [hmo] at h
              cases h
              refine ⟨fun _ => ?_, fun hc => ?_⟩
              · exact hall e (List.mem_cons_self e rest) hh hoh
              · cases hc
        · rw [if_neg hm] at h
          exact ih hrest s' r h

/-- Every non-aborting refresh step preserves the flag/handle agreement. -/
lemma refreshStep_handleInvariant (s : ProcState) (env : RefreshEnv) (s' : ProcState)
    (r : Except RefreshError Unit) (hs : handleInvariant s) (hwf : envWF env)
    (h : refreshStep s env = some (s', r)) : handleInvariant s' := by
  unfold refreshStep at h
  by_cases h1 : (s.data.attached && !isAlive env.exitCode) = true
  · rw [if_pos h1] at h
    cases h
    exact ⟨fun hc => by simp [clearData] at hc, fun _ => rfl⟩
  · rw [if_neg h1] at h
    by_cases h2 : s.data.attached = true
    · rw [if_pos h2] at h
      cases h
      exact hs
    · rw [if_neg h2] at h
      by_cases h3 : (!env.enumOk) = true
      · rw [if_pos h3] at h
        cases h
        exact hs
      · rw [if_neg h3] at h
        exact attachLoop_handleInvariant s hs env.processes hwf s' r h

/-- Claim C9: in every state reachable from construction through any
sequence of refresh calls — against any well-formed collaborator responses
(a successful OpenProcess yields a non-null handle) — the attachment flag
and the handle agree: attached implies a non-null handle, detached implies
the null handle; both are only ever written together in one step of the
machine. -/
theorem attached_handle_agree (s : ProcState) (h : Reachable s) :
    (s.data.attached = true → s.data.handle ≠ 0) ∧
    (s.data.attached = false → s.data.handle = 0) := by
  induction h with
  | init name => exact ⟨fun hc => by simp [processNew] at hc, fun _ => rfl⟩
  | step s env s' r _ hwf hstep ih =>
    exact refreshStep_handleInvariant s env s' r ih hwf hstep

/-- Witness for C9 at the freshly constructed (reachable) state. -/
theorem attached_handle_agree_witness :
    ((processNew ['a']).data.attached = true → (processNew ['a']).data.handle ≠ 0) ∧
    ((processNew ['a']).data.attached = false → (processNew ['a']).data.handle = 0) :=
  attached_handle_agree (processNew ['a']) (Reachable.init ['a'])

end MemRs
